import Mathlib

/-!
Verification of the `rotated-grid` crate (rotated halftone-grid position iterator).

The Rust source is shallowly embedded over `ℚ`: every `f64` value becomes an
exact rational, `f64` comparisons become the corresponding decidable rational
comparisons, and decimal literals (`0.5`, `1e-6`) become the exact rationals
they denote.  Trigonometry is the one non-rational step: the iterator
constructor calls `sin_cos()` on the normalized angle, so the embedding takes
the resulting pair `(sin_alpha, cos_alpha)` as parameters; theorems that need
them to come from a genuine angle assume `sin_alpha ^ 2 + cos_alpha ^ 2 = 1`
and sign conditions matching the normalization range `(-PI/2, PI/2)`.
Fallible iteration is embedded with explicit fuel: `none` means the fuel ran
out, `some (r, s)` means the call returned `r` (a yielded coordinate or
exhaustion) leaving state `s`.
-/

namespace RotatedGrid

/-- 2-D vector, from `crates/rotated-grid/src/vector.rs` (`struct Vector { x: f64, y: f64 }`). -/
structure Vector where
  x : ℚ
  y : ℚ
deriving DecidableEq

/-- Vector subtraction, `impl Sub<Vector> for Vector` in `vector.rs`. -/
def Vector.sub (a b : Vector) : Vector :=
  ⟨a.x - b.x, a.y - b.y⟩

/-- Dot product, `Vector::dot` in `vector.rs`. -/
def Vector.dot (a b : Vector) : ℚ :=
  a.x * b.x + a.y * b.y

/-- Cross product, `Vector::cross` in `vector.rs`: `self.x * other.y - self.y * other.x`. -/
def Vector.cross (a b : Vector) : ℚ :=
  a.x * b.y - a.y * b.x

/-- Modelled from the spec: `Vector::project_out` is called in
`crates/rotated-grid/src/inner/line.rs` but `inner/vector.rs` is missing from
the tree.  Per spec §4.1 (dot-product projection of the intersection point)
and the sibling `Line::project_out` in `inner/line.rs` (origin plus direction
times `t`), it offsets the vector by `t` times the given direction. -/
def Vector.project_out (v d : Vector) (t : ℚ) : Vector :=
  ⟨v.x + d.x * t, v.y + d.y * t⟩

/-- A line as a ray: origin plus direction, shared field layout of
`crates/rotated-grid/src/line.rs` and `crates/rotated-grid/src/inner/line.rs`.
The `Line::new` constructor in the source normalizes the direction (a square
root); the functions verified here operate on the stored fields, so the
embedding places no unit-length invariant on `direction`. -/
structure Line where
  origin : Vector
  direction : Vector
deriving DecidableEq

/-- The point `origin + t * direction` on a line (`impl Mul<f64> for Line`, and the
intersection-point computation in `Line::intersect_with_line`). -/
def Line.pointAt (l : Line) (t : ℚ) : Vector :=
  ⟨l.origin.x + t * l.direction.x, l.origin.y + t * l.direction.y⟩

/-- The determinant `self.direction.cross(other.direction())` from
`inner/line.rs::calculate_intersection_t` (line 51). -/
def Line.intersectionDet (l other : Line) : ℚ :=
  l.direction.cross other.direction

/-- The candidate parameter `t = other.direction.cross(delta) / det` from
`inner/line.rs::calculate_intersection_t` (line 60). -/
def Line.intersectionT (l other : Line) : ℚ :=
  other.direction.cross (l.origin.sub other.origin) / l.intersectionDet other

/-- The projection `u = projected.dot(other.direction)` from
`inner/line.rs::calculate_intersection_t` (lines 63-66). -/
def Line.intersectionU (l other : Line) : ℚ :=
  ((l.origin.sub other.origin).project_out l.direction (l.intersectionT other)).dot
    other.direction

/-- `Line::calculate_intersection_t` from `crates/rotated-grid/src/inner/line.rs`
lines 50-73, embedded literally: the parallel threshold `1e-6` becomes the exact
rational `1/1000000`, and the guard is `t >= 0.0 && u >= 0.0 && u <= max_u * max_u`. -/
def Line.calculate_intersection_t (l other : Line) (max_u : ℚ) : Option ℚ :=
  let det := l.direction.cross other.direction
  if |det| < 1 / 1000000 then none
  else
    let delta := l.origin.sub other.origin
    let t := other.direction.cross delta / det
    let projected := delta.project_out l.direction t
    let u := projected.dot other.direction
    if 0 ≤ t ∧ 0 ≤ u ∧ u ≤ max_u * max_u then some t else none

/-- `Line::intersect_with_line` from `crates/rotated-grid/src/line.rs` lines 48-69,
embedded literally (including the sign of the numerator of `t`). -/
def Line.intersect_with_line (l other : Line) : Option Vector :=
  let dx := l.origin.x - other.origin.x
  let dy := l.origin.y - other.origin.y
  let determinant := other.direction.x * l.direction.y - other.direction.y * l.direction.x
  if determinant = 0 then none
  else
    let t := (other.direction.x * dy - other.direction.y * dx) / determinant
    some ⟨l.origin.x + t * l.direction.x, l.origin.y + t * l.direction.y⟩

/-- A grid coordinate, from `crates/rotated-grid/src/grid_coord.rs`. -/
structure GridCoord where
  x : ℚ
  y : ℚ
deriving DecidableEq

/-- `f64::partial_cmp` restricted to non-NaN inputs: `ℚ` has no NaN, so the
comparison always succeeds; the `Option` wrapper models the NaN case of the
source type. -/
def qcmp (a b : ℚ) : Option Ordering :=
  some (if a < b then Ordering.lt else if b < a then Ordering.gt else Ordering.eq)

/-- `PartialOrd::partial_cmp for GridCoord`, `crates/rotated-grid/src/grid_coord.rs`
lines 26-33: it matches on the `y` comparison and falls back to `x` only in the
`None` (NaN) case, returning the `y` ordering in every `Some` case. -/
def GridCoord.coordCmp (a b : GridCoord) : Option Ordering :=
  match qcmp a.y b.y with
  | none => qcmp a.x b.x
  | some ordering => some ordering

/-- `y_count_half = ((extent.y / dy) * 0.5).floor()`,
`crates/rotated-grid/src/optimal_iterator.rs` line 75. -/
def OptimalIterator.y_count_half (extent_y dy : ℚ) : ℤ :=
  ⌊extent_y / dy * (1 / 2)⌋

/-- `start_y = center.y - (y_count_half * dy) + y0`,
`crates/rotated-grid/src/optimal_iterator.rs` line 76. -/
def OptimalIterator.start_y (center_y y0 dy extent_y : ℚ) : ℚ :=
  center_y - (OptimalIterator.y_count_half extent_y dy : ℚ) * dy + y0

/-- `y = ((tl.y - start_y) / dy).ceil() * dy + start_y`,
`crates/rotated-grid/src/optimal_iterator.rs` line 77. -/
def OptimalIterator.first_y (tl_y start_y dy : ℚ) : ℚ :=
  (⌈(tl_y - start_y) / dy⌉ : ℚ) * dy + start_y

/-- State of `GridPositionIterator` from `crates/rotated-grid/src/lib.rs` lines 66-93.
The four stored `Line` fields (`top`, `left`, `bottom`, `right`) and the
`debug_assertions`-gated counters are omitted: in `next` (lines 247-276) the ray
intersections against those edges feed only the two `debug_assert!` statements
at lines 294-295 and never influence the returned value or the cursor, and the
counters exist only in debug builds. -/
structure GridPositionIterator where
  width : ℚ
  height : ℚ
  rotated_width : ℚ
  rotated_height : ℚ
  dx : ℚ
  dy : ℚ
  x0 : ℚ
  y0 : ℚ
  center_x : ℚ
  center_y : ℚ
  start_x : ℚ
  start_y : ℚ
  sin_alpha : ℚ
  cos_alpha : ℚ
  current_x : ℚ
  current_y : ℚ
deriving DecidableEq

namespace GridPositionIterator

/-- Body of `GridPositionIterator::new` (`lib.rs` lines 118-176) after its two
asserts.  `sin_alpha`/`cos_alpha` stand for `normalize_angle(alpha).sin_cos()`:
the only non-rational step of the constructor, passed in as exact values. -/
def make (width height dx dy x0 y0 sin_alpha cos_alpha : ℚ) : GridPositionIterator :=
  let rotated_width := |width| * cos_alpha + |height| * sin_alpha
  let rotated_height := |width| * sin_alpha + |height| * cos_alpha
  let center_x := x0 + width * (1 / 2)
  let center_y := y0 + height * (1 / 2)
  { width := width
    height := height
    rotated_width := rotated_width
    rotated_height := rotated_height
    dx := dx
    dy := dy
    x0 := x0
    y0 := y0
    center_x := center_x
    center_y := center_y
    start_x := center_x - rotated_width * (1 / 2)
    start_y := center_y - rotated_height * (1 / 2)
    sin_alpha := sin_alpha
    cos_alpha := cos_alpha
    current_x := 0
    current_y := 0 }

/-- `GridPositionIterator::new` with its `assert!(width > 0.0)` and
`assert!(height > 0.0)` (`lib.rs` lines 115-116) embedded as `Option`:
`none` models the panic. -/
def new (width height dx dy x0 y0 sin_alpha cos_alpha : ℚ) :
    Option GridPositionIterator :=
  if 0 < width then
    if 0 < height then some (make width height dx dy x0 y0 sin_alpha cos_alpha)
    else none
  else none

/-- `GridPositionIterator::estimate_max_grid_points` (`lib.rs` lines 181-185):
`(width / dx).ceil() as usize * (height / dy).ceil() as usize`; the saturating
`as usize` cast of a nonnegative value is `Int.toNat`. -/
def estimate_max_grid_points (s : GridPositionIterator) : ℕ :=
  (⌈s.width / s.dx⌉).toNat * (⌈s.height / s.dy⌉).toNat

/-- `Iterator::size_hint` (`lib.rs` lines 321-323): `(0, Some(estimate))`. -/
def size_hint (s : GridPositionIterator) : ℕ × Option ℕ :=
  (0, some s.estimate_max_grid_points)

/-- `let x = self.start_x + self.current_x;` (`lib.rs` line 236). -/
def loopX (s : GridPositionIterator) : ℚ :=
  s.start_x + s.current_x

/-- `let y = self.start_y + self.current_y;` (`lib.rs` line 237). -/
def loopY (s : GridPositionIterator) : ℚ :=
  s.start_y + s.current_y

/-- `unrotated_x` (`lib.rs` lines 240-243) with `inv_sin = -sin`, `inv_cos = cos`. -/
def unrotatedX (s : GridPositionIterator) : ℚ :=
  (s.loopX - s.center_x) * s.cos_alpha - (s.loopY - s.center_y) * (-s.sin_alpha) + s.center_x

/-- `unrotated_y` (`lib.rs` lines 244-245). -/
def unrotatedY (s : GridPositionIterator) : ℚ :=
  (s.loopX - s.center_x) * (-s.sin_alpha) + (s.loopY - s.center_y) * s.cos_alpha + s.center_y

/-- Cursor update (`lib.rs` lines 278-283): `current_x += dx`, wrapping to the
next row when it exceeds `rotated_width`. -/
def advance (s : GridPositionIterator) : GridPositionIterator :=
  let cx := s.current_x + s.dx
  if s.rotated_width < cx then { s with current_x := 0, current_y := s.current_y + s.dy }
  else { s with current_x := cx }

/-- Containment test (`lib.rs` lines 289-293). -/
def contained (s : GridPositionIterator) : Prop :=
  s.x0 ≤ s.unrotatedX ∧ s.unrotatedX ≤ s.x0 + s.width ∧
    s.y0 ≤ s.unrotatedY ∧ s.unrotatedY ≤ s.y0 + s.height

instance (s : GridPositionIterator) : Decidable s.contained := by
  unfold contained
  infer_instance

/-- Exhaustion test (`lib.rs` line 304): the current scan position left the
bounding box to the right or below. -/
def pastEnd (s : GridPositionIterator) : Prop :=
  s.start_x + s.rotated_width < s.loopX ∨ s.start_y + s.rotated_height < s.loopY

instance (s : GridPositionIterator) : Decidable s.pastEnd := by
  unfold pastEnd
  infer_instance

/-- One iteration of the `loop` in `Iterator::next` (`lib.rs` lines 235-318):
`(some (some c), s)` returns `Some(c)`, `(some none, s)` returns `None`,
`(none, s)` continues the loop in state `s`.  The cursor is updated before the
containment and exhaustion checks, which use the pre-update position, exactly
as in the source. -/
def stepResult (s : GridPositionIterator) : Option (Option GridCoord) × GridPositionIterator :=
  if s.contained then (some (some ⟨s.unrotatedX, s.unrotatedY⟩), s.advance)
  else if s.pastEnd then (some none, s.advance)
  else (none, s.advance)

/-- `Iterator::next` with fuel bounding the number of loop iterations:
`none` means the fuel ran out, `some (r, s)` that the call returned `r`. -/
def nextFuel : ℕ → GridPositionIterator → Option (Option GridCoord × GridPositionIterator)
  | 0, _ => none
  | fuel + 1, s =>
    match s.stepResult with
    | (some r, s1) => some (r, s1)
    | (none, s1) => nextFuel fuel s1

/-- Number of coordinates yielded before the first exhausted call, with fuel
bounding the total number of loop iterations. -/
def runCount : ℕ → GridPositionIterator → Option ℕ
  | 0, _ => none
  | fuel + 1, s =>
    match s.stepResult with
    | (some (some _), s1) => (runCount fuel s1).map (fun n => n + 1)
    | (some none, _) => some 0
    | (none, s1) => runCount fuel s1

/-- `t` is a state of the iterator reachable from `s` by zero or more
completed calls to `next`. -/
inductive Reaches : GridPositionIterator → GridPositionIterator → Prop where
  | refl (s : GridPositionIterator) : Reaches s s
  | step {s s1 t : GridPositionIterator} {fuel : ℕ} {r : Option GridCoord} :
      nextFuel fuel s = some (r, s1) → Reaches s1 t → Reaches s t

/-- Bound on the number of in-row cursor advances after a wrap:
`ceil(rotated_width / dx) + 1`, clamped to `ℕ`.  Proof device for the
termination argument, not a source function. -/
def xCap (s : GridPositionIterator) : ℕ :=
  (⌈s.rotated_width / s.dx⌉ + 1).toNat

/-- Remaining in-row cursor advances before the row wraps (termination device). -/
def xSteps (s : GridPositionIterator) : ℕ :=
  (⌈(s.rotated_width - s.current_x) / s.dx⌉ + 1).toNat

/-- Remaining row wraps before the scan leaves the bounding box (termination device). -/
def ySteps (s : GridPositionIterator) : ℕ :=
  (⌈(s.rotated_height - s.current_y) / s.dy⌉ + 1).toNat

/-- Termination measure of the scan loop in `next`: lexicographic combination
of remaining rows and remaining columns. -/
def loopMeasure (s : GridPositionIterator) : ℕ :=
  s.ySteps * (s.xCap + 1) + s.xSteps

/-- The algebraic relations `GridPositionIterator::new` establishes between the
configuration fields (`lib.rs` lines 122-131). -/
def WellFormed (s : GridPositionIterator) : Prop :=
  s.rotated_width = |s.width| * s.cos_alpha + |s.height| * s.sin_alpha ∧
    s.rotated_height = |s.width| * s.sin_alpha + |s.height| * s.cos_alpha ∧
    s.center_x = s.x0 + s.width * (1 / 2) ∧
    s.center_y = s.y0 + s.height * (1 / 2) ∧
    s.start_x = s.center_x - s.rotated_width * (1 / 2) ∧
    s.start_y = s.center_y - s.rotated_height * (1 / 2)

/-- Invariant of the column cursor: it is `0` (fresh row) or has not yet passed
the bounding-box width.  Holds after construction and after every cursor update. -/
def CursorInv (s : GridPositionIterator) : Prop :=
  s.current_x = 0 ∨ s.current_x ≤ s.rotated_width

/-- The configuration hypotheses of the non-negative-angle claims, expressed on
the state's own fields: well-formed configuration, positive rectangle,
non-negative row spacing, and `(sin_alpha, cos_alpha)` a genuine sine/cosine
pair of an angle in `[0, PI/2)`. -/
def Nice (s : GridPositionIterator) : Prop :=
  s.WellFormed ∧ 0 < s.width ∧ 0 < s.height ∧ 0 ≤ s.dy ∧ 0 ≤ s.sin_alpha ∧
    0 ≤ s.cos_alpha ∧ s.sin_alpha ^ 2 + s.cos_alpha ^ 2 = 1

/-- The configuration fields of the iterator: everything except the two cursor
fields `current_x`, `current_y`.  `next` mutates only the cursor. -/
def cfg (s : GridPositionIterator) : List ℚ :=
  [s.width, s.height, s.rotated_width, s.rotated_height, s.dx, s.dy, s.x0, s.y0,
    s.center_x, s.center_y, s.start_x, s.start_y, s.sin_alpha, s.cos_alpha]

end GridPositionIterator

/-- The spec's size-estimate formula (§4.2): `ceil((width + dx)/dx) * ceil((height + dy)/dy)`.
Stated from the spec's words, for comparison against the source's
`estimate_max_grid_points`. -/
def specSizeEstimate (width height dx dy : ℚ) : ℕ :=
  (⌈(width + dx) / dx⌉).toNat * (⌈(height + dy) / dy⌉).toNat

/-- Cursor states of the iterator constructed with `width = 14`, `height = 7`,
`dx = dy = 7`, zero offsets and angle `0` (so `sin = 0`, `cos = 1`):
`trace14 cx cy = make 14 7 7 7 0 0 0 1` with the cursor at `(cx, cy)`. -/
def trace14 (cx cy : ℚ) : GridPositionIterator :=
  { width := 14, height := 7, rotated_width := 14, rotated_height := 7, dx := 7, dy := 7,
    x0 := 0, y0 := 0, center_x := 7, center_y := 7 / 2, start_x := 0, start_y := 0,
    sin_alpha := 0, cos_alpha := 1, current_x := cx, current_y := cy }

/-- Cursor states of the iterator constructed with `width = height = 1`,
`dx = 1`, `dy = 3`, zero offsets and angle `0`. -/
def squareState (cx cy : ℚ) : GridPositionIterator :=
  { width := 1, height := 1, rotated_width := 1, rotated_height := 1, dx := 1, dy := 3,
    x0 := 0, y0 := 0, center_x := 1 / 2, center_y := 1 / 2, start_x := 0, start_y := 0,
    sin_alpha := 0, cos_alpha := 1, current_x := cx, current_y := cy }

/-- Cursor states of the iterator constructed with `width = 4`, `height = 1`,
`dx = 1`, `dy = 1/4`, zero offsets and a negative angle with
`sin = -3/5`, `cos = 4/5` (the normalized angle `-arcsin(3/5)` lies in
`(-PI/2, 0)`, so this sine/cosine pair arises from a real construction).
The rotated extents are `13/5` and `-8/5`: the negative rotated height arms
the exhaustion check from the very first call. -/
def negAngleState (cx cy : ℚ) : GridPositionIterator :=
  { width := 4, height := 1, rotated_width := 13 / 5, rotated_height := -8 / 5, dx := 1,
    dy := 1 / 4, x0 := 0, y0 := 0, center_x := 2, center_y := 1 / 2, start_x := 7 / 10,
    start_y := 13 / 10, sin_alpha := -3 / 5, cos_alpha := 4 / 5, current_x := cx,
    current_y := cy }

namespace GridPositionIterator

theorem cfg_advance (s : GridPositionIterator) : s.advance.cfg = s.cfg := by
  unfold advance
  dsimp only
  split <;> rfl

theorem cfg_stepResult {s : GridPositionIterator} {r : Option (Option GridCoord)}
    {s1 : GridPositionIterator} (h : s.stepResult = (r, s1)) : s1.cfg = s.cfg := by
  unfold stepResult at h
  split at h
  · rw [Prod.mk.injEq] at h
    rw [← h.2]
    exact cfg_advance s
  · split at h <;>
      (rw [Prod.mk.injEq] at h
       rw [← h.2]
       exact cfg_advance s)

theorem cfg_nextFuel :
    ∀ (fuel : ℕ) {s : GridPositionIterator} {r : Option GridCoord}
      {s1 : GridPositionIterator}, nextFuel fuel s = some (r, s1) → s1.cfg = s.cfg := by
  intro fuel
  induction fuel with
  | zero => intro s r s1 h; simp [nextFuel] at h
  | succ n ih =>
    intro s r s1 h
    unfold nextFuel at h
    rcases hstep : s.stepResult with ⟨ro, st⟩
    rw [hstep] at h
    match ro, h with
    | some rr, h =>
      simp only [Option.some.injEq, Prod.mk.injEq] at h
      rw [← h.2]
      exact cfg_stepResult hstep
    | none, h =>
      exact (ih h).trans (cfg_stepResult hstep)

theorem cfg_reaches {s t : GridPositionIterator} (h : Reaches s t) : t.cfg = s.cfg := by
  induction h with
  | refl => rfl
  | step hstep _ ih => exact ih.trans (cfg_nextFuel _ hstep)

theorem cfg_fields {a b : GridPositionIterator} (h : a.cfg = b.cfg) :
    a.width = b.width ∧ a.height = b.height ∧ a.rotated_width = b.rotated_width ∧
      a.rotated_height = b.rotated_height ∧ a.dx = b.dx ∧ a.dy = b.dy ∧
      a.x0 = b.x0 ∧ a.y0 = b.y0 ∧ a.center_x = b.center_x ∧ a.center_y = b.center_y ∧
      a.start_x = b.start_x ∧ a.start_y = b.start_y ∧ a.sin_alpha = b.sin_alpha ∧
      a.cos_alpha = b.cos_alpha := by
  simpa [cfg] using h

end GridPositionIterator

/-- If the two direction vectors have nonzero determinant, the point
`origin + t * direction` at the computed intersection parameter lies on the
other line. -/
theorem pointAt_intersectionT_on_other (l other : Line)
    (hdet : l.intersectionDet other ≠ 0) :
    ∃ u : ℚ, l.pointAt (l.intersectionT other) = other.pointAt u := by
  rcases l with ⟨⟨o1x, o1y⟩, ⟨d1x, d1y⟩⟩
  rcases other with ⟨⟨o2x, o2y⟩, ⟨d2x, d2y⟩⟩
  simp only [Line.intersectionDet, Line.intersectionT, Line.pointAt, Vector.cross,
    Vector.sub] at *
  set t : ℚ := (d2x * (o1y - o2y) - d2y * (o1x - o2x)) / (d1x * d2y - d1y * d2x) with ht
  set wx : ℚ := o1x + t * d1x - o2x with hwx
  set wy : ℚ := o1y + t * d1y - o2y with hwy
  have hn : d2x ^ 2 + d2y ^ 2 ≠ 0 := by
    intro h0
    apply hdet
    have hx : d2x = 0 := by nlinarith [sq_nonneg d2x, sq_nonneg d2y]
    have hy : d2y = 0 := by nlinarith [sq_nonneg d2x, sq_nonneg d2y]
    rw [hx, hy]
    ring
  have hcol : wx * d2y - wy * d2x = 0 := by
    rw [hwx, hwy, ht]
    field_simp
    ring
  refine ⟨(wx * d2x + wy * d2y) / (d2x ^ 2 + d2y ^ 2), ?_⟩
  have h1 : (wx * d2x + wy * d2y) / (d2x ^ 2 + d2y ^ 2) * d2x = wx := by
    rw [div_mul_eq_mul_div, div_eq_iff hn]
    linear_combination (-d2y) * hcol
  have h2 : (wx * d2x + wy * d2y) / (d2x ^ 2 + d2y ^ 2) * d2y = wy := by
    rw [div_mul_eq_mul_div, div_eq_iff hn]
    linear_combination d2x * hcol
  rw [Vector.mk.injEq]
  constructor
  · rw [h1, hwx]
    ring
  · rw [h2, hwy]
    ring

/-- C6 (amended): `calculate_intersection_t` returns `Some(t)` precisely when the
determinant of the two direction vectors has magnitude at least `1e-6`, the
parameter `t` along `self` is nonnegative, and the dot-product projection `u`
of the intersection point onto `other`'s direction satisfies
`0 ≤ u ≤ max_u * max_u` (the square of `max_u`, not `max_u` itself); a returned
point then lies on `other` over exact arithmetic. -/
theorem calculate_intersection_t_characterization (l other : Line) (max_u : ℚ) :
    (∀ t : ℚ, l.calculate_intersection_t other max_u = some t →
        t = l.intersectionT other ∧ 0 ≤ t ∧ ∃ u : ℚ, l.pointAt t = other.pointAt u) ∧
      (l.calculate_intersection_t other max_u = none ↔
        |l.intersectionDet other| < 1 / 1000000 ∨ l.intersectionT other < 0 ∨
          l.intersectionU other < 0 ∨ max_u * max_u < l.intersectionU other) := by
  have hrw : l.calculate_intersection_t other max_u =
      (if |l.intersectionDet other| < 1 / 1000000 then none
       else if 0 ≤ l.intersectionT other ∧ 0 ≤ l.intersectionU other ∧
           l.intersectionU other ≤ max_u * max_u then
         some (l.intersectionT other)
       else none) := rfl
  constructor
  · intro t ht
    rw [hrw] at ht
    by_cases h1 : |l.intersectionDet other| < 1 / 1000000
    · rw [if_pos h1] at ht
      exact absurd ht (by simp)
    · rw [if_neg h1] at ht
      by_cases h2 : 0 ≤ l.intersectionT other ∧ 0 ≤ l.intersectionU other ∧
          l.intersectionU other ≤ max_u * max_u
      · rw [if_pos h2] at ht
        have hte : l.intersectionT other = t := Option.some.inj ht
        have hdet : l.intersectionDet other ≠ 0 := by
          intro h0
          apply h1
          rw [h0]
          norm_num
        refine ⟨hte.symm, hte ▸ h2.1, ?_⟩
        rw [← hte]
        exact pointAt_intersectionT_on_other l other hdet
      · rw [if_neg h2] at ht
        exact absurd ht (by simp)
  · rw [hrw]
    by_cases h1 : |l.intersectionDet other| < 1 / 1000000
    · rw [if_pos h1]
      constructor
      · intro _
        exact Or.inl h1
      · intro _
        rfl
    · rw [if_neg h1]
      by_cases h2 : 0 ≤ l.intersectionT other ∧ 0 ≤ l.intersectionU other ∧
          l.intersectionU other ≤ max_u * max_u
      · rw [if_pos h2]
        constructor
        · intro habs
          exact absurd habs (by simp)
        · rintro (h | h | h | h)
          · exact absurd h h1
          · exact absurd h (not_lt.mpr h2.1)
          · exact absurd h (not_lt.mpr h2.2.1)
          · exact absurd h (not_lt.mpr h2.2.2)
      · rw [if_neg h2]
        push_neg at h2
        constructor
        · intro _
          by_cases ha : 0 ≤ l.intersectionT other
          · by_cases hb : 0 ≤ l.intersectionU other
            · exact Or.inr (Or.inr (Or.inr (h2 ha hb)))
            · exact Or.inr (Or.inr (Or.inl (not_le.mp hb)))
          · exact Or.inr (Or.inl (not_le.mp ha))
        · intro _
          rfl

/-- Witness for the C6 theorem: a concrete intersection where `Some(2)` is
returned and the returned point lies on the other line. -/
theorem calculate_intersection_t_characterization_witness :
    Line.calculate_intersection_t ⟨⟨0, 0⟩, ⟨1, 0⟩⟩ ⟨⟨2, -1⟩, ⟨0, 1⟩⟩ 2 = some 2 ∧
      ((2 : ℚ) = Line.intersectionT ⟨⟨0, 0⟩, ⟨1, 0⟩⟩ ⟨⟨2, -1⟩, ⟨0, 1⟩⟩ ∧ (0 : ℚ) ≤ 2 ∧
        ∃ u : ℚ, Line.pointAt ⟨⟨0, 0⟩, ⟨1, 0⟩⟩ 2 = Line.pointAt ⟨⟨2, -1⟩, ⟨0, 1⟩⟩ u) := by
  have hsome : Line.calculate_intersection_t ⟨⟨0, 0⟩, ⟨1, 0⟩⟩ ⟨⟨2, -1⟩, ⟨0, 1⟩⟩ 2 = some 2 := by
    norm_num [Line.calculate_intersection_t, Vector.cross, Vector.sub, Vector.project_out,
      Vector.dot]
  exact ⟨hsome,
    (calculate_intersection_t_characterization ⟨⟨0, 0⟩, ⟨1, 0⟩⟩ ⟨⟨2, -1⟩, ⟨0, 1⟩⟩ 2).1 2 hsome⟩

/-- C6 counterexample: the lines meet at parameter `3` along `other`, outside
`[0, max_u] = [0, 2]`, yet the source returns `Some(3)` because it compares the
projection against `max_u * max_u = 4`.  The claim's "None when the intersection
falls outside `[0, max_u]` along `other`" is false as stated. -/
theorem calculate_intersection_t_beyond_max_u :
    Line.calculate_intersection_t ⟨⟨0, 0⟩, ⟨1, 0⟩⟩ ⟨⟨3, -3⟩, ⟨0, 1⟩⟩ 2 = some 3 ∧
      Line.pointAt ⟨⟨0, 0⟩, ⟨1, 0⟩⟩ 3 = Line.pointAt ⟨⟨3, -3⟩, ⟨0, 1⟩⟩ 3 ∧
      ¬ ∃ u : ℚ, 0 ≤ u ∧ u ≤ 2 ∧
          Line.pointAt ⟨⟨3, -3⟩, ⟨0, 1⟩⟩ u = Line.pointAt ⟨⟨0, 0⟩, ⟨1, 0⟩⟩ 3 := by
  refine ⟨?_, ?_, ?_⟩
  · norm_num [Line.calculate_intersection_t, Vector.cross, Vector.sub, Vector.project_out,
      Vector.dot]
  · norm_num [Line.pointAt]
  · rintro ⟨u, hu0, hu2, hu⟩
    simp only [Line.pointAt, Vector.mk.injEq] at hu
    obtain ⟨h1, h2⟩ := hu
    norm_num at h2
    linarith

/-- C10: `intersect_with_line` at the input of the crate's own unit test
`test_intersect_with_1` returns `(1, 2)`, which does not lie on the second
line (the test itself expects `(3, 4)`): the numerator of `t` has the wrong
sign, so the returned point is off the other line. -/
theorem intersect_with_line_off_other_line :
    Line.intersect_with_line ⟨⟨2, 3⟩, ⟨2, 2⟩⟩ ⟨⟨1, 5⟩, ⟨2, -1⟩⟩ = some ⟨1, 2⟩ ∧
      (⟨1, 2⟩ : Vector) ≠ ⟨3, 4⟩ ∧
      ¬ ∃ u : ℚ, Line.pointAt ⟨⟨1, 5⟩, ⟨2, -1⟩⟩ u = ⟨1, 2⟩ := by
  refine ⟨?_, ?_, ?_⟩
  · norm_num [Line.intersect_with_line, Vector.mk.injEq]
  · intro h
    rw [Vector.mk.injEq] at h
    norm_num at h
  · rintro ⟨u, hu⟩
    simp only [Line.pointAt, Vector.mk.injEq] at hu
    obtain ⟨h1, h2⟩ := hu
    norm_num at h1 h2
    linarith

/-- C9: `GridCoord::partial_cmp` at `(1, 5)` and `(2, 5)` returns
`Some(Equal)` although the coordinates differ: the source matches on `None`
(the NaN case) instead of `Some(Equal)` before falling back to `x`, so equal
`y` values are never tie-broken by `x`. -/
theorem coordCmp_equal_y_ignores_x :
    GridCoord.coordCmp ⟨1, 5⟩ ⟨2, 5⟩ = some Ordering.eq ∧ (⟨1, 5⟩ : GridCoord) ≠ ⟨2, 5⟩ := by
  constructor
  · norm_num [GridCoord.coordCmp, qcmp]
  · intro h
    rw [GridCoord.mk.injEq] at h
    norm_num at h

/-- C5: constructing the iterator fails (the embedded `new` returns `none`,
modelling the `assert!` panic) exactly when `width` or `height` is
non-positive; for all other rational argument values construction succeeds. -/
theorem new_none_iff (width height dx dy x0 y0 sin_alpha cos_alpha : ℚ) :
    GridPositionIterator.new width height dx dy x0 y0 sin_alpha cos_alpha = none ↔
      width ≤ 0 ∨ height ≤ 0 := by
  unfold GridPositionIterator.new
  by_cases hw : 0 < width
  · by_cases hh : 0 < height
    · rw [if_pos hw, if_pos hh]
      constructor
      · intro habs
        exact absurd habs (by simp)
      · rintro (hle | hle) <;> linarith
    · rw [if_pos hw, if_neg hh]
      constructor
      · intro _
        exact Or.inr (le_of_not_lt hh)
      · intro _
        rfl
  · rw [if_neg hw]
    constructor
    · intro _
      exact Or.inl (le_of_not_lt hw)
    · intro _
      rfl

/-- C4 (amended): for positive spacings, `size_hint` returns
`(0, Some(ceil(width/dx) * ceil(height/dy)))` — the source divides the plain
width and height by the spacings, without the spec's `+ dx` / `+ dy` terms. -/
theorem size_hint_formula (width height dx dy x0 y0 sin_alpha cos_alpha : ℚ)
    (_hdx : 0 < dx) (_hdy : 0 < dy) :
    (GridPositionIterator.make width height dx dy x0 y0 sin_alpha cos_alpha).size_hint =
      (0, some ((⌈width / dx⌉).toNat * (⌈height / dy⌉).toNat)) := rfl

/-- Witness for the C4 theorem at the crate's doc-example parameters. -/
theorem size_hint_formula_witness :
    (0 : ℚ) < 7 ∧
      (GridPositionIterator.make 16 10 7 7 0 0 0 1).size_hint = (0, some 6) := by
  refine ⟨by norm_num, ?_⟩
  have hc1 : (⌈(16 : ℚ) / 7⌉ : ℤ) = 3 := by
    rw [Int.ceil_eq_iff]
    constructor <;> norm_num
  have hc2 : (⌈(10 : ℚ) / 7⌉ : ℤ) = 2 := by
    rw [Int.ceil_eq_iff]
    constructor <;> norm_num
  rw [size_hint_formula 16 10 7 7 0 0 0 1 (by norm_num) (by norm_num), hc1, hc2]
  rfl

/-- C4 counterexample: at the crate's doc-example parameters
(`width = 16, height = 10, dx = dy = 7`) the source's `size_hint` upper bound is
`ceil(16/7) * ceil(10/7) = 6`, while the claim's formula
`ceil((16+7)/7) * ceil((10+7)/7)` gives `12`. -/
theorem size_hint_ne_spec_formula :
    (GridPositionIterator.make 16 10 7 7 0 0 0 1).size_hint = (0, some 6) ∧
      specSizeEstimate 16 10 7 7 = 12 ∧
      (GridPositionIterator.make 16 10 7 7 0 0 0 1).size_hint ≠
        (0, some (specSizeEstimate 16 10 7 7)) := by
  have hc1 : (⌈(16 : ℚ) / 7⌉ : ℤ) = 3 := by
    rw [Int.ceil_eq_iff]
    constructor <;> norm_num
  have hc2 : (⌈(10 : ℚ) / 7⌉ : ℤ) = 2 := by
    rw [Int.ceil_eq_iff]
    constructor <;> norm_num
  have hc3 : (⌈((16 : ℚ) + 7) / 7⌉ : ℤ) = 4 := by
    rw [Int.ceil_eq_iff]
    constructor <;> norm_num
  have hc4 : (⌈((10 : ℚ) + 7) / 7⌉ : ℤ) = 3 := by
    rw [Int.ceil_eq_iff]
    constructor <;> norm_num
  have h1 : (GridPositionIterator.make 16 10 7 7 0 0 0 1).size_hint = (0, some 6) := by
    show (0, some ((⌈(16 : ℚ) / 7⌉).toNat * (⌈(10 : ℚ) / 7⌉).toNat)) = (0, some 6)
    rw [hc1, hc2]
    rfl
  have h2 : specSizeEstimate 16 10 7 7 = 12 := by
    unfold specSizeEstimate
    rw [hc3, hc4]
    rfl
  refine ⟨h1, h2, ?_⟩
  rw [h1, h2]
  simp

/-- C2 (amended): in `OptimalIterator::new`, the first scanned row is the
smallest lattice value `center.y + y0 + k * dy` (`k` integer) at or above the
bounding-box top edge `tl.y`, and every subsequent row `first + j * dy` stays
on that lattice. -/
theorem optimal_first_row (center_y y0 dy extent_y tl_y : ℚ) (hdy : 0 < dy) :
    (∃ k : ℤ,
        OptimalIterator.first_y tl_y (OptimalIterator.start_y center_y y0 dy extent_y) dy =
          center_y + y0 + k * dy) ∧
      tl_y ≤ OptimalIterator.first_y tl_y (OptimalIterator.start_y center_y y0 dy extent_y) dy ∧
      (∀ k : ℤ, tl_y ≤ center_y + y0 + k * dy →
        OptimalIterator.first_y tl_y (OptimalIterator.start_y center_y y0 dy extent_y) dy ≤
          center_y + y0 + k * dy) ∧
      (∀ j : ℕ, ∃ k : ℤ,
        OptimalIterator.first_y tl_y (OptimalIterator.start_y center_y y0 dy extent_y) dy +
            j * dy =
          center_y + y0 + k * dy) := by
  set m : ℤ := OptimalIterator.y_count_half extent_y dy with hm
  have hsy : OptimalIterator.start_y center_y y0 dy extent_y = center_y - m * dy + y0 := rfl
  set sy : ℚ := center_y - m * dy + y0 with hsydef
  set c : ℤ := ⌈(tl_y - sy) / dy⌉ with hc
  have hfy : OptimalIterator.first_y tl_y (OptimalIterator.start_y center_y y0 dy extent_y) dy =
      (c : ℚ) * dy + sy := by
    rw [OptimalIterator.first_y, hsy]
  refine ⟨⟨c - m, ?_⟩, ?_, ?_, ?_⟩
  · rw [hfy, hsydef]
    push_cast
    ring
  · rw [hfy]
    have hle : (tl_y - sy) / dy ≤ (c : ℚ) := Int.le_ceil _
    rw [div_le_iff₀ hdy] at hle
    linarith
  · intro k hk
    rw [hfy]
    have hk3 : (tl_y - sy) / dy ≤ ((k + m : ℤ) : ℚ) := by
      rw [div_le_iff₀ hdy, hsydef]
      push_cast
      linarith
    have hk4 : c ≤ k + m := Int.ceil_le.mpr hk3
    have hk5 : (c : ℚ) ≤ ((k + m : ℤ) : ℚ) := by exact_mod_cast hk4
    have hk6 : (c : ℚ) * dy ≤ ((k + m : ℤ) : ℚ) * dy :=
      mul_le_mul_of_nonneg_right hk5 (le_of_lt hdy)
    rw [hsydef]
    push_cast at hk6 ⊢
    linarith
  · intro j
    refine ⟨c - m + j, ?_⟩
    rw [hfy, hsydef]
    push_cast
    ring

/-- Witness for the C2 theorem at `center_y = 1/2`, `y0 = 0`, `dy = 1`,
`extent_y = 1`, `tl_y = 0`. -/
theorem optimal_first_row_witness :
    (0 : ℚ) < 1 ∧
      ((∃ k : ℤ,
          OptimalIterator.first_y 0 (OptimalIterator.start_y (1 / 2) 0 1 1) 1 =
            1 / 2 + 0 + k * 1) ∧
        (0 : ℚ) ≤ OptimalIterator.first_y 0 (OptimalIterator.start_y (1 / 2) 0 1 1) 1 ∧
        (∀ k : ℤ, (0 : ℚ) ≤ 1 / 2 + 0 + k * 1 →
          OptimalIterator.first_y 0 (OptimalIterator.start_y (1 / 2) 0 1 1) 1 ≤
            1 / 2 + 0 + k * 1) ∧
        (∀ j : ℕ, ∃ k : ℤ,
          OptimalIterator.first_y 0 (OptimalIterator.start_y (1 / 2) 0 1 1) 1 + j * 1 =
            1 / 2 + 0 + k * 1)) :=
  ⟨by norm_num, optimal_first_row (1 / 2) 0 1 1 0 (by norm_num)⟩

namespace GridPositionIterator

theorem stepResult_yield {s : GridPositionIterator} (h : s.contained) :
    s.stepResult = (some (some ⟨s.unrotatedX, s.unrotatedY⟩), s.advance) := by
  unfold stepResult
  rw [if_pos h]

theorem stepResult_done {s : GridPositionIterator} (h1 : ¬ s.contained) (h2 : s.pastEnd) :
    s.stepResult = (some none, s.advance) := by
  unfold stepResult
  rw [if_neg h1, if_pos h2]

theorem stepResult_skip {s : GridPositionIterator} (h1 : ¬ s.contained) (h2 : ¬ s.pastEnd) :
    s.stepResult = (none, s.advance) := by
  unfold stepResult
  rw [if_neg h1, if_neg h2]

theorem nextFuel_of_return (fuel : ℕ) {s s1 : GridPositionIterator} {r : Option GridCoord}
    (h : s.stepResult = (some r, s1)) : nextFuel (fuel + 1) s = some (r, s1) := by
  unfold nextFuel
  rw [h]

theorem nextFuel_of_skip (fuel : ℕ) {s s1 : GridPositionIterator}
    (h : s.stepResult = (none, s1)) : nextFuel (fuel + 1) s = nextFuel fuel s1 := by
  conv_lhs => rw [nextFuel]
  rw [h]

theorem runCount_of_yield (fuel : ℕ) {s s1 : GridPositionIterator} {c : GridCoord}
    (h : s.stepResult = (some (some c), s1)) :
    runCount (fuel + 1) s = (runCount fuel s1).map (fun n => n + 1) := by
  conv_lhs => rw [runCount]
  rw [h]

theorem runCount_of_done (fuel : ℕ) {s s1 : GridPositionIterator}
    (h : s.stepResult = (some none, s1)) : runCount (fuel + 1) s = some 0 := by
  unfold runCount
  rw [h]

/-- Any coordinate returned by the scan loop satisfies the containment bounds
of the state it was produced from: the loop returns `Some` only behind the
containment guard of `lib.rs` lines 289-293. -/
theorem nextFuel_yield_bounds :
    ∀ (fuel : ℕ) {s s1 : GridPositionIterator} {c : GridCoord},
      nextFuel fuel s = some (some c, s1) →
      s.x0 ≤ c.x ∧ c.x ≤ s.x0 + s.width ∧ s.y0 ≤ c.y ∧ c.y ≤ s.y0 + s.height := by
  intro fuel
  induction fuel with
  | zero =>
    intro s s1 c h
    simp [nextFuel] at h
  | succ n ih =>
    intro s s1 c h
    by_cases hcont : s.contained
    · rw [nextFuel_of_return n (stepResult_yield hcont)] at h
      simp only [Option.some.injEq, Prod.mk.injEq] at h
      have hc2 : (⟨s.unrotatedX, s.unrotatedY⟩ : GridCoord) = c := h.1
      obtain ⟨g1, g2, g3, g4⟩ := hcont
      rw [← hc2]
      exact ⟨g1, g2, g3, g4⟩
    · by_cases hpe : s.pastEnd
      · rw [nextFuel_of_return n (stepResult_done hcont hpe)] at h
        simp at h
      · rw [nextFuel_of_skip n (stepResult_skip hcont hpe)] at h
        have hb := ih h
        obtain ⟨hw, hh, _, _, _, _, hx0, hy0, _⟩ :=
          cfg_fields (cfg_stepResult (stepResult_skip hcont hpe))
        rw [hx0, hy0, hw, hh] at hb
        exact hb

end GridPositionIterator

/-- C1: every coordinate yielded by an iterator constructed with positive width
and height (any spacings, offsets, angle) lies in
`[x0, x0 + width] × [y0, y0 + height]` — exactly, hence within any tolerance:
the returned values are the very values tested by the containment guard. -/
theorem containment (width height dx dy x0 y0 sin_alpha cos_alpha : ℚ)
    (_hw : 0 < width) (_hh : 0 < height) (st : GridPositionIterator)
    (hreach : GridPositionIterator.Reaches
      (GridPositionIterator.make width height dx dy x0 y0 sin_alpha cos_alpha) st)
    (fuel : ℕ) (c : GridCoord) (st1 : GridPositionIterator)
    (hnext : GridPositionIterator.nextFuel fuel st = some (some c, st1)) :
    x0 ≤ c.x ∧ c.x ≤ x0 + width ∧ y0 ≤ c.y ∧ c.y ≤ y0 + height := by
  have hb := GridPositionIterator.nextFuel_yield_bounds fuel hnext
  obtain ⟨hw', hh', _, _, _, _, hx0', hy0', _⟩ :=
    GridPositionIterator.cfg_fields (GridPositionIterator.cfg_reaches hreach)
  rw [hx0', hy0', hw', hh'] at hb
  exact hb

/-- Witness for C1 at `width = height = dx = dy = 1`, zero offsets, angle `0`:
the first call yields `(0, 0)`, which satisfies the bounds. -/
theorem containment_witness :
    (0 : ℚ) < 1 ∧
      (∃ s1, GridPositionIterator.nextFuel 1 (GridPositionIterator.make 1 1 1 1 0 0 0 1) =
        some (some ⟨0, 0⟩, s1)) ∧
      ((0 : ℚ) ≤ (⟨0, 0⟩ : GridCoord).x ∧ (⟨0, 0⟩ : GridCoord).x ≤ 0 + 1 ∧
        (0 : ℚ) ≤ (⟨0, 0⟩ : GridCoord).y ∧ (⟨0, 0⟩ : GridCoord).y ≤ 0 + 1) := by
  have hcont : (GridPositionIterator.make 1 1 1 1 0 0 0 1).contained := by
    norm_num [GridPositionIterator.contained, GridPositionIterator.unrotatedX,
      GridPositionIterator.unrotatedY, GridPositionIterator.loopX, GridPositionIterator.loopY,
      GridPositionIterator.make]
  have hstep := GridPositionIterator.stepResult_yield hcont
  have hcoord : (⟨(GridPositionIterator.make 1 1 1 1 0 0 0 1).unrotatedX,
      (GridPositionIterator.make 1 1 1 1 0 0 0 1).unrotatedY⟩ : GridCoord) = ⟨0, 0⟩ := by
    norm_num [GridPositionIterator.unrotatedX, GridPositionIterator.unrotatedY,
      GridPositionIterator.loopX, GridPositionIterator.loopY, GridPositionIterator.make,
      GridCoord.mk.injEq]
  rw [hcoord] at hstep
  have hnext : GridPositionIterator.nextFuel 1 (GridPositionIterator.make 1 1 1 1 0 0 0 1) =
      some (some ⟨0, 0⟩, (GridPositionIterator.make 1 1 1 1 0 0 0 1).advance) :=
    GridPositionIterator.nextFuel_of_return 0 hstep
  exact ⟨by norm_num, ⟨_, hnext⟩,
    containment 1 1 1 1 0 0 0 1 (by norm_num) (by norm_num) _
      (GridPositionIterator.Reaches.refl _) 1 ⟨0, 0⟩ _ hnext⟩

section CountTrace

open GridPositionIterator

/-- C3: at `width = 14, height = 7, dx = dy = 7`, zero offsets and angle `0`,
the iterator yields `6` coordinates before exhaustion, but `size_hint` returns
the upper bound `2` (`ceil(14/7) * ceil(7/7)`): the claimed bound
`count ≤ size_hint` fails, contradicting the crate's own
`debug_assert!(hits <= estimate_max_grid_points)` (`lib.rs` line 307) and the
doc-example assertion `count <= expected_max`. -/
theorem yield_count_exceeds_estimate :
    runCount 10 (make 14 7 7 7 0 0 0 1) = some 6 ∧
      (make 14 7 7 7 0 0 0 1).size_hint = (0, some 2) ∧ ¬ (6 : ℕ) ≤ 2 := by
  have hmk : make 14 7 7 7 0 0 0 1 = trace14 0 0 := by
    norm_num [make, trace14, GridPositionIterator.mk.injEq]
  have hux : ∀ cx cy : ℚ, (trace14 cx cy).unrotatedX = cx := by
    intro cx cy
    simp only [unrotatedX, loopX, loopY, trace14]
    ring
  have huy : ∀ cx cy : ℚ, (trace14 cx cy).unrotatedY = cy := by
    intro cx cy
    simp only [unrotatedY, loopX, loopY, trace14]
    ring
  have hyield : ∀ cx cy : ℚ, 0 ≤ cx → cx ≤ 14 → 0 ≤ cy → cy ≤ 7 →
      (trace14 cx cy).contained := by
    intro cx cy h1 h2 h3 h4
    simp only [contained, hux, huy]
    simp only [trace14]
    exact ⟨h1, by linarith, h3, by linarith⟩
  have hstep : ∀ cx cy : ℚ, (trace14 cx cy).contained →
      (trace14 cx cy).stepResult =
        (some (some ⟨cx, cy⟩),
          if (14 : ℚ) < cx + 7 then trace14 0 (cy + 7) else trace14 (cx + 7) cy) := by
    intro cx cy hc
    rw [stepResult_yield hc, hux, huy]
    refine Prod.ext rfl ?_
    show (trace14 cx cy).advance = _
    simp only [advance, trace14]
  have s1 : (trace14 0 0).stepResult = (some (some ⟨0, 0⟩), trace14 7 0) := by
    have h := hstep 0 0 (hyield 0 0 (by norm_num) (by norm_num) (by norm_num) (by norm_num))
    rw [if_neg (by norm_num)] at h
    norm_num at h
    exact h
  have s2 : (trace14 7 0).stepResult = (some (some ⟨7, 0⟩), trace14 14 0) := by
    have h := hstep 7 0 (hyield 7 0 (by norm_num) (by norm_num) (by norm_num) (by norm_num))
    rw [if_neg (by norm_num)] at h
    norm_num at h
    exact h
  have s3 : (trace14 14 0).stepResult = (some (some ⟨14, 0⟩), trace14 0 7) := by
    have h := hstep 14 0 (hyield 14 0 (by norm_num) (by norm_num) (by norm_num) (by norm_num))
    rw [if_pos (by norm_num)] at h
    norm_num at h
    exact h
  have s4 : (trace14 0 7).stepResult = (some (some ⟨0, 7⟩), trace14 7 7) := by
    have h := hstep 0 7 (hyield 0 7 (by norm_num) (by norm_num) (by norm_num) (by norm_num))
    rw [if_neg (by norm_num)] at h
    norm_num at h
    exact h
  have s5 : (trace14 7 7).stepResult = (some (some ⟨7, 7⟩), trace14 14 7) := by
    have h := hstep 7 7 (hyield 7 7 (by norm_num) (by norm_num) (by norm_num) (by norm_num))
    rw [if_neg (by norm_num)] at h
    norm_num at h
    exact h
  have s6 : (trace14 14 7).stepResult = (some (some ⟨14, 7⟩), trace14 0 14) := by
    have h := hstep 14 7 (hyield 14 7 (by norm_num) (by norm_num) (by norm_num) (by norm_num))
    rw [if_pos (by norm_num)] at h
    norm_num at h
    exact h
  have s7 : (trace14 0 14).stepResult = (some none, trace14 7 14) := by
    have hnc : ¬ (trace14 0 14).contained := by
      simp only [contained, hux, huy]
      simp only [trace14]
      norm_num
    have hpe : (trace14 0 14).pastEnd := by
      refine Or.inr ?_
      simp only [loopY, trace14]
      norm_num
    rw [stepResult_done hnc hpe]
    refine Prod.ext rfl ?_
    show (trace14 0 14).advance = _
    simp only [advance, trace14]
    rw [if_neg (by norm_num)]
    norm_num
  have v7 : runCount 4 (trace14 0 14) = some 0 := runCount_of_done 3 s7
  have v6 : runCount 5 (trace14 14 7) = some 1 := by
    have h := runCount_of_yield 4 s6
    rw [v7] at h
    norm_num at h
    exact h
  have v5 : runCount 6 (trace14 7 7) = some 2 := by
    have h := runCount_of_yield 5 s5
    rw [v6] at h
    norm_num at h
    exact h
  have v4 : runCount 7 (trace14 0 7) = some 3 := by
    have h := runCount_of_yield 6 s4
    rw [v5] at h
    norm_num at h
    exact h
  have v3 : runCount 8 (trace14 14 0) = some 4 := by
    have h := runCount_of_yield 7 s3
    rw [v4] at h
    norm_num at h
    exact h
  have v2 : runCount 9 (trace14 7 0) = some 5 := by
    have h := runCount_of_yield 8 s2
    rw [v3] at h
    norm_num at h
    exact h
  have v1 : runCount 10 (trace14 0 0) = some 6 := by
    have h := runCount_of_yield 9 s1
    rw [v2] at h
    norm_num at h
    exact h
  have hc14 : (⌈(14 : ℚ) / 7⌉ : ℤ) = 2 := by
    rw [Int.ceil_eq_iff]
    constructor <;> norm_num
  have hc7 : (⌈(7 : ℚ) / 7⌉ : ℤ) = 1 := by
    rw [Int.ceil_eq_iff]
    constructor <;> norm_num
  refine ⟨by rw [hmk]; exact v1, ?_, by norm_num⟩
  show (0, some ((⌈(14 : ℚ) / 7⌉).toNat * (⌈(7 : ℚ) / 7⌉).toNat)) = (0, some 2)
  rw [hc14, hc7]
  rfl

end CountTrace

theorem ceil_div_sub (a d : ℚ) (hd : d ≠ 0) : ⌈(a - d) / d⌉ = ⌈a / d⌉ - 1 := by
  have h : (a - d) / d = a / d - 1 := by
    field_simp
  rw [h]
  exact Int.ceil_sub_one _

namespace GridPositionIterator

/-- Each loop iteration of `next` that neither yields nor exhausts strictly
decreases the termination measure, provided both spacings are positive. -/
theorem measure_decreases {s s1 : GridPositionIterator} (hdx : 0 < s.dx) (hdy : 0 < s.dy)
    (hstep : s.stepResult = (none, s1)) : s1.loopMeasure < s.loopMeasure := by
  have hcont : ¬ s.contained := by
    intro hc
    rw [stepResult_yield hc] at hstep
    simp at hstep
  have hpe : ¬ s.pastEnd := by
    intro hp
    rw [stepResult_done hcont hp] at hstep
    simp at hstep
  have hs1 : s.advance = s1 := by
    rw [stepResult_skip hcont hpe] at hstep
    injection hstep with h1 h2
  subst hs1
  unfold pastEnd loopX loopY at hpe
  push_neg at hpe
  have hcx : s.current_x ≤ s.rotated_width := by linarith [hpe.1]
  have hcy : s.current_y ≤ s.rotated_height := by linarith [hpe.2]
  unfold advance
  dsimp only
  split
  · rename_i hwrap
    have hq : (0 : ℤ) ≤ ⌈(s.rotated_height - s.current_y) / s.dy⌉ :=
      Int.ceil_nonneg (div_nonneg (by linarith) (le_of_lt hdy))
    have hy1 : ySteps { s with current_x := 0, current_y := s.current_y + s.dy } =
        (⌈(s.rotated_height - s.current_y) / s.dy⌉).toNat := by
      unfold ySteps
      dsimp only
      rw [show s.rotated_height - (s.current_y + s.dy) =
          (s.rotated_height - s.current_y) - s.dy by ring]
      rw [ceil_div_sub _ _ (ne_of_gt hdy)]
      omega
    have hy0 : ySteps s = (⌈(s.rotated_height - s.current_y) / s.dy⌉).toNat + 1 := by
      unfold ySteps
      omega
    have hx1 : xSteps { s with current_x := 0, current_y := s.current_y + s.dy } = xCap s := by
      unfold xSteps xCap
      dsimp only
      rw [sub_zero]
    have hcap : xCap { s with current_x := 0, current_y := s.current_y + s.dy } = xCap s := rfl
    unfold loopMeasure
    rw [hy1, hy0, hx1, hcap]
    have hexp : ((⌈(s.rotated_height - s.current_y) / s.dy⌉).toNat + 1) * (xCap s + 1) =
        (⌈(s.rotated_height - s.current_y) / s.dy⌉).toNat * (xCap s + 1) + xCap s + 1 := by
      ring
    rw [hexp]
    omega
  · rename_i hnowrap
    have hle : s.current_x + s.dx ≤ s.rotated_width := le_of_not_lt hnowrap
    have hp : (0 : ℤ) < ⌈(s.rotated_width - s.current_x) / s.dx⌉ := by
      rw [Int.lt_ceil]
      push_cast
      exact div_pos (by linarith) hdx
    have hx1 : xSteps { s with current_x := s.current_x + s.dx } =
        (⌈(s.rotated_width - s.current_x) / s.dx⌉).toNat := by
      unfold xSteps
      dsimp only
      rw [show s.rotated_width - (s.current_x + s.dx) =
          (s.rotated_width - s.current_x) - s.dx by ring]
      rw [ceil_div_sub _ _ (ne_of_gt hdx)]
      omega
    have hx0 : xSteps s = (⌈(s.rotated_width - s.current_x) / s.dx⌉).toNat + 1 := by
      unfold xSteps
      omega
    have hy1 : ySteps { s with current_x := s.current_x + s.dx } = ySteps s := rfl
    have hcap : xCap { s with current_x := s.current_x + s.dx } = xCap s := rfl
    unfold loopMeasure
    rw [hx1, hx0, hy1, hcap]
    exact Nat.add_lt_add_left (by omega) _

/-- With positive spacings, the scan loop always returns within
`loopMeasure + 1` iterations: some fuel makes `nextFuel` succeed. -/
theorem nextFuel_returns :
    ∀ (n : ℕ) (s : GridPositionIterator), s.loopMeasure ≤ n → 0 < s.dx → 0 < s.dy →
      ∃ (fuel : ℕ) (res : Option GridCoord × GridPositionIterator),
        nextFuel fuel s = some res := by
  intro n
  induction n with
  | zero =>
    intro s hm hdx hdy
    rcases hstep : s.stepResult with ⟨ro, st⟩
    match ro, hstep with
    | some r, hstep => exact ⟨1, (r, st), nextFuel_of_return 0 hstep⟩
    | none, hstep =>
      have := measure_decreases hdx hdy hstep
      omega
  | succ n ih =>
    intro s hm hdx hdy
    rcases hstep : s.stepResult with ⟨ro, st⟩
    match ro, hstep with
    | some r, hstep => exact ⟨1, (r, st), nextFuel_of_return 0 hstep⟩
    | none, hstep =>
      have hdec := measure_decreases hdx hdy hstep
      obtain ⟨_, _, _, _, hdx', hdy', _⟩ := cfg_fields (cfg_stepResult hstep)
      obtain ⟨fuel, res, hres⟩ :=
        ih st (by omega) (by rw [hdx']; exact hdx) (by rw [hdy']; exact hdy)
      exact ⟨fuel + 1, res, by rw [nextFuel_of_skip fuel hstep]; exact hres⟩

end GridPositionIterator

/-- C8: for every iterator constructed with positive width, height, `dx` and
`dy` (any offsets and angle) and every state reachable from construction, a
call to `next` terminates: the scan loop returns `Some` or `None` after
finitely many iterations (some finite fuel suffices). -/
theorem next_call_terminates (width height dx dy x0 y0 sin_alpha cos_alpha : ℚ)
    (_hw : 0 < width) (_hh : 0 < height) (hdx : 0 < dx) (hdy : 0 < dy)
    (st : GridPositionIterator)
    (hreach : GridPositionIterator.Reaches
      (GridPositionIterator.make width height dx dy x0 y0 sin_alpha cos_alpha) st) :
    ∃ (fuel : ℕ) (res : Option GridCoord × GridPositionIterator),
      GridPositionIterator.nextFuel fuel st = some res := by
  obtain ⟨_, _, _, _, hdx', hdy', _⟩ :=
    GridPositionIterator.cfg_fields (GridPositionIterator.cfg_reaches hreach)
  exact GridPositionIterator.nextFuel_returns st.loopMeasure st le_rfl
    (by rw [hdx']; exact hdx) (by rw [hdy']; exact hdy)

/-- Witness for C8 at `width = height = dx = dy = 1`, zero offsets, angle `0`. -/
theorem next_call_terminates_witness :
    (0 : ℚ) < 1 ∧
      ∃ (fuel : ℕ) (res : Option GridCoord × GridPositionIterator),
        GridPositionIterator.nextFuel fuel (GridPositionIterator.make 1 1 1 1 0 0 0 1) =
          some res :=
  ⟨by norm_num,
    next_call_terminates 1 1 1 1 0 0 0 1 (by norm_num) (by norm_num) (by norm_num)
      (by norm_num) _ (GridPositionIterator.Reaches.refl _)⟩

namespace GridPositionIterator

theorem make_nice (width height dx dy x0 y0 sin_alpha cos_alpha : ℚ) (hw : 0 < width)
    (hh : 0 < height) (hdy : 0 ≤ dy) (hs : 0 ≤ sin_alpha) (hc : 0 ≤ cos_alpha)
    (hsc : sin_alpha ^ 2 + cos_alpha ^ 2 = 1) :
    Nice (make width height dx dy x0 y0 sin_alpha cos_alpha) :=
  ⟨⟨rfl, rfl, rfl, rfl, rfl, rfl⟩, hw, hh, hdy, hs, hc, hsc⟩

theorem nice_congr {a b : GridPositionIterator} (h : a.cfg = b.cfg) (hb : Nice b) : Nice a := by
  obtain ⟨hw, hh, hrw, hrh, hdx, hdy, hx0, hy0, hcx, hcy, hsx, hsy, hsin, hcos⟩ := cfg_fields h
  obtain ⟨⟨w1, w2, w3, w4, w5, w6⟩, n1, n2, n3, n4, n5, n6⟩ := hb
  refine ⟨⟨?_, ?_, ?_, ?_, ?_, ?_⟩, ?_, ?_, ?_, ?_, ?_, ?_⟩
  · rw [hrw, hw, hh, hsin, hcos]
    exact w1
  · rw [hrh, hw, hh, hsin, hcos]
    exact w2
  · rw [hcx, hx0, hw]
    exact w3
  · rw [hcy, hy0, hh]
    exact w4
  · rw [hsx, hcx, hrw]
    exact w5
  · rw [hsy, hcy, hrh]
    exact w6
  · rw [hw]
    exact n1
  · rw [hh]
    exact n2
  · rw [hdy]
    exact n3
  · rw [hsin]
    exact n4
  · rw [hcos]
    exact n5
  · rw [hsin, hcos]
    exact n6

theorem rotated_width_nonneg {s : GridPositionIterator} (hnice : Nice s) :
    0 ≤ s.rotated_width := by
  obtain ⟨⟨w1, -, -, -, -, -⟩, -, -, -, hs, hc, -⟩ := hnice
  rw [w1]
  exact add_nonneg (mul_nonneg (abs_nonneg _) hc) (mul_nonneg (abs_nonneg _) hs)

theorem advance_cursorInv (s : GridPositionIterator) : CursorInv s.advance := by
  unfold advance
  dsimp only
  split
  · exact Or.inl rfl
  · rename_i hlt
    exact Or.inr (le_of_not_lt hlt)

theorem nextFuel_cursorInv :
    ∀ (fuel : ℕ) {s s1 : GridPositionIterator} {r : Option GridCoord},
      nextFuel fuel s = some (r, s1) → CursorInv s1 := by
  intro fuel
  induction fuel with
  | zero =>
    intro s s1 r h
    simp [nextFuel] at h
  | succ n ih =>
    intro s s1 r h
    by_cases hcont : s.contained
    · rw [nextFuel_of_return n (stepResult_yield hcont)] at h
      simp only [Option.some.injEq, Prod.mk.injEq] at h
      rw [← h.2]
      exact advance_cursorInv s
    · by_cases hpe : s.pastEnd
      · rw [nextFuel_of_return n (stepResult_done hcont hpe)] at h
        simp only [Option.some.injEq, Prod.mk.injEq] at h
        rw [← h.2]
        exact advance_cursorInv s
      · rw [nextFuel_of_skip n (stepResult_skip hcont hpe)] at h
        exact ih h

theorem reaches_cursorInv {s t : GridPositionIterator} (h : Reaches s t)
    (hs : CursorInv s) : CursorInv t := by
  induction h with
  | refl => exact hs
  | step hstep _ ih => exact ih (nextFuel_cursorInv _ hstep)

/-- For an angle normalized into `[0, PI/2)` (both sine and cosine
non-negative), a scan position whose row cursor lies strictly below the
rotated height unrotates to a point outside the rectangle, so the containment
guard fails. -/
theorem not_contained_of_row_below {s : GridPositionIterator} (hnice : Nice s)
    (hbelow : s.rotated_height < s.current_y) : ¬ s.contained := by
  obtain ⟨⟨hwf1, hwf2, hwf3, hwf4, hwf5, hwf6⟩, hw, hh, hdy, hs, hc, hsc⟩ := hnice
  intro hcont
  obtain ⟨g1, g2, g3, g4⟩ := hcont
  have habsw : |s.width| = s.width := abs_of_pos hw
  have habsh : |s.height| = s.height := abs_of_pos hh
  have key : s.loopY - s.center_y =
      s.sin_alpha * (s.unrotatedX - s.center_x) +
        s.cos_alpha * (s.unrotatedY - s.center_y) := by
    unfold unrotatedX unrotatedY
    linear_combination (s.center_y - s.loopY) * hsc
  have hx2 : s.unrotatedX - s.center_x ≤ s.width * (1 / 2) := by
    linarith [g2, hwf3]
  have hy2 : s.unrotatedY - s.center_y ≤ s.height * (1 / 2) := by
    linarith [g4, hwf4]
  have hb1 : s.sin_alpha * (s.unrotatedX - s.center_x) ≤
      s.sin_alpha * (s.width * (1 / 2)) := mul_le_mul_of_nonneg_left hx2 hs
  have hb2 : s.cos_alpha * (s.unrotatedY - s.center_y) ≤
      s.cos_alpha * (s.height * (1 / 2)) := mul_le_mul_of_nonneg_left hy2 hc
  have hrh : s.rotated_height = s.width * s.sin_alpha + s.height * s.cos_alpha := by
    rw [hwf2, habsw, habsh]
  have hly : s.loopY = s.start_y + s.current_y := rfl
  linarith [key, hb1, hb2, hwf6, hrh, hly, hbelow]

/-- A call that returns `None` leaves the row cursor strictly below the
rotated height (for the non-negative-angle configuration). -/
theorem nextFuel_none_below :
    ∀ (fuel : ℕ) {s s1 : GridPositionIterator}, Nice s → CursorInv s →
      nextFuel fuel s = some (none, s1) → s1.rotated_height < s1.current_y := by
  intro fuel
  induction fuel with
  | zero =>
    intro s s1 hnice hinv h
    simp [nextFuel] at h
  | succ n ih =>
    intro s s1 hnice hinv h
    by_cases hcont : s.contained
    · rw [nextFuel_of_return n (stepResult_yield hcont)] at h
      simp at h
    · by_cases hpe : s.pastEnd
      · rw [nextFuel_of_return n (stepResult_done hcont hpe)] at h
        simp only [Option.some.injEq, Prod.mk.injEq] at h
        obtain ⟨-, hs1⟩ := h
        have hcy : s.rotated_height < s.current_y := by
          rcases hpe with hx | hy
          · exfalso
            unfold loopX at hx
            have hrw : 0 ≤ s.rotated_width := rotated_width_nonneg hnice
            rcases hinv with h0 | hle
            · rw [h0] at hx
              linarith
            · linarith
          · unfold loopY at hy
            linarith
        obtain ⟨-, -, -, hdy0, -, -, -⟩ := hnice
        rw [← hs1]
        unfold advance
        dsimp only
        split
        · show s.rotated_height < s.current_y + s.dy
          linarith
        · exact hcy
      · rw [nextFuel_of_skip n (stepResult_skip hcont hpe)] at h
        exact ih (nice_congr (cfg_advance s) hnice) (advance_cursorInv s) h

/-- Once the row cursor is strictly below the rotated height, every completed
call returns `None` and preserves that condition (non-negative-angle
configuration). -/
theorem nextFuel_stays_below {fuel : ℕ} {s s1 : GridPositionIterator}
    {r : Option GridCoord} (hnice : Nice s) (hbelow : s.rotated_height < s.current_y)
    (h : nextFuel fuel s = some (r, s1)) :
    r = none ∧ s1.rotated_height < s1.current_y := by
  match fuel, h with
  | n + 1, h =>
    have hnc : ¬ s.contained := not_contained_of_row_below hnice hbelow
    have hpe : s.pastEnd := by
      refine Or.inr ?_
      unfold loopY
      linarith
    rw [nextFuel_of_return n (stepResult_done hnc hpe)] at h
    simp only [Option.some.injEq, Prod.mk.injEq] at h
    obtain ⟨hr, hs1⟩ := h
    obtain ⟨-, -, -, hdy0, -, -, -⟩ := hnice
    refine ⟨hr.symm, ?_⟩
    rw [← hs1]
    unfold advance
    dsimp only
    split
    · show s.rotated_height < s.current_y + s.dy
      linarith
    · exact hbelow

theorem reaches_below {s t : GridPositionIterator} (h : Reaches s t) (hnice : Nice s)
    (hbelow : s.rotated_height < s.current_y) :
    Nice t ∧ t.rotated_height < t.current_y := by
  induction h with
  | refl => exact ⟨hnice, hbelow⟩
  | step hstep _ ih =>
    rename_i s' s1' t' fuel' r' _
    have hstay := nextFuel_stays_below hnice hbelow hstep
    exact ih (nice_congr (cfg_nextFuel _ hstep) hnice) hstay.2

end GridPositionIterator

/-- C7 (amended): for an iterator constructed with positive width and height,
non-negative `dy`, and an angle whose normalized value lies in `[0, PI/2)`
(sine and cosine both non-negative — `sin_alpha^2 + cos_alpha^2 = 1` states
that the pair is a genuine sine/cosine), once a call to `next` has returned
`None`, every later completed call also returns `None`.  (For angles with
negative sine this fails; see the counterexample.) -/
theorem none_is_absorbing (width height dx dy x0 y0 sin_alpha cos_alpha : ℚ)
    (hw : 0 < width) (hh : 0 < height) (hdy : 0 ≤ dy) (hs : 0 ≤ sin_alpha)
    (hc : 0 ≤ cos_alpha) (hsc : sin_alpha ^ 2 + cos_alpha ^ 2 = 1)
    (st : GridPositionIterator)
    (h1 : GridPositionIterator.Reaches
      (GridPositionIterator.make width height dx dy x0 y0 sin_alpha cos_alpha) st)
    (fuel : ℕ) (st1 : GridPositionIterator)
    (h2 : GridPositionIterator.nextFuel fuel st = some (none, st1))
    (st2 : GridPositionIterator) (h3 : GridPositionIterator.Reaches st1 st2)
    (fuel2 : ℕ) (r : Option GridCoord) (st3 : GridPositionIterator)
    (h4 : GridPositionIterator.nextFuel fuel2 st2 = some (r, st3)) :
    r = none := by
  have hnice0 := GridPositionIterator.make_nice width height dx dy x0 y0 sin_alpha cos_alpha
    hw hh hdy hs hc hsc
  have hnice_st := GridPositionIterator.nice_congr
    (GridPositionIterator.cfg_reaches h1) hnice0
  have hinv_st : GridPositionIterator.CursorInv st :=
    GridPositionIterator.reaches_cursorInv h1 (Or.inl rfl)
  have hbelow1 := GridPositionIterator.nextFuel_none_below fuel hnice_st hinv_st h2
  have hnice1 := GridPositionIterator.nice_congr
    (GridPositionIterator.cfg_nextFuel _ h2) hnice_st
  have h5 := GridPositionIterator.reaches_below h3 hnice1 hbelow1
  exact (GridPositionIterator.nextFuel_stays_below h5.1 h5.2 h4).1

section NoneTraces

open GridPositionIterator

/-- Witness for the C7 theorem: with `width = height = 1`, `dx = 1`, `dy = 3`,
zero offsets and angle `0`, the third call returns `None` and the fourth call
(settled through the theorem) returns `None` again. -/
theorem none_is_absorbing_witness :
    nextFuel 1 (squareState 0 3) = some (none, squareState 1 3) ∧
      ∃ p : Option GridCoord × GridPositionIterator,
        nextFuel 1 (squareState 1 3) = some p ∧ p.1 = none := by
  have hmk : make 1 1 1 3 0 0 0 1 = squareState 0 0 := by
    norm_num [make, squareState, GridPositionIterator.mk.injEq]
  have hc1 : (squareState 0 0).contained := by
    simp only [contained, unrotatedX, unrotatedY, loopX, loopY, squareState]
    norm_num
  have hs1 : (squareState 0 0).stepResult = (some (some ⟨0, 0⟩), squareState 1 0) := by
    rw [stepResult_yield hc1]
    norm_num [unrotatedX, unrotatedY, loopX, loopY, advance, squareState, Prod.mk.injEq,
      GridCoord.mk.injEq, GridPositionIterator.mk.injEq]
  have hc2 : (squareState 1 0).contained := by
    simp only [contained, unrotatedX, unrotatedY, loopX, loopY, squareState]
    norm_num
  have hs2 : (squareState 1 0).stepResult = (some (some ⟨1, 0⟩), squareState 0 3) := by
    rw [stepResult_yield hc2]
    norm_num [unrotatedX, unrotatedY, loopX, loopY, advance, squareState, Prod.mk.injEq,
      GridCoord.mk.injEq, GridPositionIterator.mk.injEq]
  have hnc3 : ¬ (squareState 0 3).contained := by
    simp only [contained, unrotatedX, unrotatedY, loopX, loopY, squareState]
    norm_num
  have hpe3 : (squareState 0 3).pastEnd := by
    refine Or.inr ?_
    simp only [loopY, squareState]
    norm_num
  have hs3 : (squareState 0 3).stepResult = (some none, squareState 1 3) := by
    rw [stepResult_done hnc3 hpe3]
    refine Prod.ext rfl ?_
    show (squareState 0 3).advance = _
    simp only [advance, squareState]
    norm_num [GridPositionIterator.mk.injEq]
  have hnc4 : ¬ (squareState 1 3).contained := by
    simp only [contained, unrotatedX, unrotatedY, loopX, loopY, squareState]
    norm_num
  have hpe4 : (squareState 1 3).pastEnd := by
    refine Or.inr ?_
    simp only [loopY, squareState]
    norm_num
  have hs4 : (squareState 1 3).stepResult = (some none, squareState 0 6) := by
    rw [stepResult_done hnc4 hpe4]
    refine Prod.ext rfl ?_
    show (squareState 1 3).advance = _
    simp only [advance, squareState]
    norm_num [GridPositionIterator.mk.injEq]
  have hcall1 : nextFuel 1 (squareState 0 0) = some (some ⟨0, 0⟩, squareState 1 0) :=
    nextFuel_of_return 0 hs1
  have hcall2 : nextFuel 1 (squareState 1 0) = some (some ⟨1, 0⟩, squareState 0 3) :=
    nextFuel_of_return 0 hs2
  have hcall3 : nextFuel 1 (squareState 0 3) = some (none, squareState 1 3) :=
    nextFuel_of_return 0 hs3
  have hcall4 : nextFuel 1 (squareState 1 3) = some (none, squareState 0 6) :=
    nextFuel_of_return 0 hs4
  have hreach : Reaches (make 1 1 1 3 0 0 0 1) (squareState 0 3) := by
    rw [hmk]
    exact Reaches.step hcall1 (Reaches.step hcall2 (Reaches.refl _))
  obtain ⟨⟨r4, s4⟩, h4⟩ :
      ∃ p : Option GridCoord × GridPositionIterator, nextFuel 1 (squareState 1 3) = some p :=
    ⟨_, hcall4⟩
  have hr4 : r4 = none :=
    none_is_absorbing 1 1 1 3 0 0 0 1 (by norm_num) (by norm_num) (by norm_num) le_rfl
      (by norm_num) (by norm_num) (squareState 0 3) hreach 1 (squareState 1 3) hcall3
      (squareState 1 3) (Reaches.refl _) 1 r4 s4 h4
  exact ⟨hcall3, ⟨(r4, s4), h4, hr4⟩⟩

/-- C7 counterexample: with `width = 4`, `height = 1`, `dx = 1`, `dy = 1/4`,
zero offsets and the negative normalized angle `-arcsin(3/5)` (sine `-3/5`,
cosine `4/5`, a genuine sine/cosine pair, last conjunct), the third call to
`next` returns `None` and the fourth call returns `Some` again: the negative
rotated height arms the exhaustion check from the first call, so `None` does
not mean the scan is finished.  The claim "once `next` has returned `None`,
every subsequent call also returns `None`" is false as stated. -/
theorem none_then_some_counterexample :
    make 4 1 1 (1 / 4) 0 0 (-3 / 5) (4 / 5) = negAngleState 0 0 ∧
      nextFuel 1 (negAngleState 0 0) =
        some (some ⟨12 / 25, 9 / 25⟩, negAngleState 1 0) ∧
      nextFuel 1 (negAngleState 1 0) =
        some (some ⟨32 / 25, 24 / 25⟩, negAngleState 2 0) ∧
      nextFuel 1 (negAngleState 2 0) = some (none, negAngleState 0 (1 / 4)) ∧
      nextFuel 1 (negAngleState 0 (1 / 4)) =
        some (some ⟨33 / 100, 14 / 25⟩, negAngleState 1 (1 / 4)) ∧
      ((-3 / 5 : ℚ)) ^ 2 + ((4 / 5 : ℚ)) ^ 2 = 1 := by
  have hmk : make 4 1 1 (1 / 4) 0 0 (-3 / 5) (4 / 5) = negAngleState 0 0 := by
    norm_num [make, negAngleState, GridPositionIterator.mk.injEq]
  have hc1 : (negAngleState 0 0).contained := by
    simp only [contained, unrotatedX, unrotatedY, loopX, loopY, negAngleState]
    norm_num
  have hs1 : (negAngleState 0 0).stepResult =
      (some (some ⟨12 / 25, 9 / 25⟩), negAngleState 1 0) := by
    rw [stepResult_yield hc1]
    norm_num [unrotatedX, unrotatedY, loopX, loopY, advance, negAngleState, Prod.mk.injEq,
      GridCoord.mk.injEq, GridPositionIterator.mk.injEq]
  have hc2 : (negAngleState 1 0).contained := by
    simp only [contained, unrotatedX, unrotatedY, loopX, loopY, negAngleState]
    norm_num
  have hs2 : (negAngleState 1 0).stepResult =
      (some (some ⟨32 / 25, 24 / 25⟩), negAngleState 2 0) := by
    rw [stepResult_yield hc2]
    norm_num [unrotatedX, unrotatedY, loopX, loopY, advance, negAngleState, Prod.mk.injEq,
      GridCoord.mk.injEq, GridPositionIterator.mk.injEq]
  have hnc3 : ¬ (negAngleState 2 0).contained := by
    simp only [contained, unrotatedX, unrotatedY, loopX, loopY, negAngleState]
    norm_num
  have hpe3 : (negAngleState 2 0).pastEnd := by
    refine Or.inr ?_
    simp only [loopY, negAngleState]
    norm_num
  have hs3 : (negAngleState 2 0).stepResult = (some none, negAngleState 0 (1 / 4)) := by
    rw [stepResult_done hnc3 hpe3]
    refine Prod.ext rfl ?_
    show (negAngleState 2 0).advance = _
    simp only [advance, negAngleState]
    norm_num [GridPositionIterator.mk.injEq]
  have hc4 : (negAngleState 0 (1 / 4)).contained := by
    simp only [contained, unrotatedX, unrotatedY, loopX, loopY, negAngleState]
    norm_num
  have hs4 : (negAngleState 0 (1 / 4)).stepResult =
      (some (some ⟨33 / 100, 14 / 25⟩), negAngleState 1 (1 / 4)) := by
    rw [stepResult_yield hc4]
    norm_num [unrotatedX, unrotatedY, loopX, loopY, advance, negAngleState, Prod.mk.injEq,
      GridCoord.mk.injEq, GridPositionIterator.mk.injEq]
  exact ⟨hmk, nextFuel_of_return 0 hs1, nextFuel_of_return 0 hs2, nextFuel_of_return 0 hs3,
    nextFuel_of_return 0 hs4, by norm_num⟩

end NoneTraces

/-- C2 counterexample: `GridPositionIterator` (the other constructed iterator,
cited at `lib.rs` lines 129-131 and 278-283) starts its row scan at
`start_y = center_y - rotated_height/2`, not on the lattice
`center.y + y0 + k * dy`: with `width = height = dx = dy = 1`, offsets `0` and
angle `0`, the first scanned row is `y = 0`, but every lattice value is
`1/2 + k`. -/
theorem gridposition_first_row_not_phase_locked :
    (GridPositionIterator.make 1 1 1 1 0 0 0 1).loopY = 0 ∧
      ¬ ∃ k : ℤ, (0 : ℚ) =
        (GridPositionIterator.make 1 1 1 1 0 0 0 1).center_y +
          (GridPositionIterator.make 1 1 1 1 0 0 0 1).y0 +
          k * (GridPositionIterator.make 1 1 1 1 0 0 0 1).dy := by
  constructor
  · norm_num [GridPositionIterator.make, GridPositionIterator.loopY]
  · rintro ⟨k, hk⟩
    norm_num [GridPositionIterator.make] at hk
    have h2 : ((2 * k : ℤ) : ℚ) = ((-1 : ℤ) : ℚ) := by
      push_cast
      linarith
    have h3 : (2 * k : ℤ) = -1 := Int.cast_injective h2
    omega

end RotatedGrid
